import Mathlib

/-!
Verification development for the PeaceTalk browser application
(`src/App.tsx`, `src/services/geminiService.ts`, `src/types.ts`,
`src/components/EmotionChart.tsx`).

The application state held by the `App` component is embedded as the
structure `AppState`; each React event handler of `App.tsx` becomes a pure
transition function on `AppState`.  Asynchronous handlers are split at
their `await` points into a begin phase (which performs the guarded state
updates and, as ghost instrumentation, records the remote call being
issued) and a completion phase (which receives the remote outcome as an
`Except`).  React's re-render/effect semantics for the two
`useEffect` hooks with dependencies `[inputText, imageBase64,
isScreenSharing]` (the debounced auto-analysis effect and the
clear-results effect) are embedded by `runEffects`/`withEffects`: after a
state commit that changes one of those three dependencies, the previous
debounce timeout is cleared and the effect bodies run.  Timers are
embedded by identity: `window.setTimeout` hands out a fresh identifier,
a timeout fires only while it is still the pending one (`clearTimeout`
makes the identifier stale), and the 5000 ms `setInterval` of the
screen-share session delivers ticks only while the interval is alive.

The response handling of `geminiService.analyzeContent` is embedded over
a small executable JSON parser standing in for the platform `JSON.parse`.
-/

namespace PeaceTalk

/-! ## JSON values and a parser standing in for `JSON.parse` -/

/-- A JSON value.  Number literals keep their source lexeme, since the
client never computes with them. -/
inductive JsonValue where
  | null
  | bool (b : Bool)
  | num (lexeme : String)
  | str (s : String)
  | arr (elems : List JsonValue)
  | obj (members : List (String × JsonValue))

/-- Whitespace as treated by the embedding of JavaScript `trim`. -/
def isJsWs (c : Char) : Bool :=
  c = ' ' || c = '\n' || c = '\t' || c = '\r'

/-- Embedding of JavaScript `String.prototype.trim`: strip whitespace
from both ends. -/
def jsTrim (s : String) : String :=
  String.mk (((s.toList.dropWhile isJsWs).reverse.dropWhile isJsWs).reverse)

/-- Skip JSON whitespace. -/
def skipWs : List Char → List Char
  | [] => []
  | c :: cs => if c = ' ' || c = '\n' || c = '\t' || c = '\r' then skipWs cs else c :: cs

/-- Map a JSON escape character to the character it denotes. -/
def escChar (c : Char) : Char :=
  if c = 'n' then '\n'
  else if c = 't' then '\t'
  else if c = 'r' then '\r'
  else if c = 'b' then Char.ofNat 8
  else if c = 'f' then Char.ofNat 12
  else c

/-- Parse the body of a JSON string (the opening quote already consumed),
returning the decoded characters and the remaining input. -/
def parseStringChars : List Char → Option (List Char × List Char)
  | [] => none
  | '"' :: cs => some ([], cs)
  | '\\' :: e :: cs =>
    match parseStringChars cs with
    | some (s, r) => some (escChar e :: s, r)
    | none => none
  | c :: cs =>
    match parseStringChars cs with
    | some (s, r) => some (c :: s, r)
    | none => none

/-- Longest prefix of decimal digits. -/
def spanDigits : List Char → List Char × List Char
  | [] => ([], [])
  | c :: cs =>
    if c.isDigit then
      let (d, r) := spanDigits cs
      (c :: d, r)
    else ([], c :: cs)

/-- Optional fractional part of a JSON number. -/
def parseFrac : List Char → Option (List Char × List Char)
  | '.' :: r =>
    let (d, r2) := spanDigits r
    if d.isEmpty then none else some ('.' :: d, r2)
  | cs => some ([], cs)

/-- Optional exponent part of a JSON number. -/
def parseExp : List Char → Option (List Char × List Char)
  | c :: r =>
    if c = 'e' || c = 'E' then
      let (sgn, r1) :=
        match r with
        | s :: r2 => if s = '+' || s = '-' then ([s], r2) else ([], s :: r2)
        | [] => ([], [])
      let (d, r3) := spanDigits r1
      if d.isEmpty then none else some (c :: (sgn ++ d), r3)
    else some ([], c :: r)
  | [] => some ([], [])

/-- Lex a JSON number, keeping its lexeme. -/
def parseNumberLex (cs : List Char) : Option (String × List Char) :=
  let (sign, cs1) :=
    match cs with
    | '-' :: r => ([('-' : Char)], r)
    | _ => ([], cs)
  let (ip, cs2) := spanDigits cs1
  if ip.isEmpty then none
  else
    match parseFrac cs2 with
    | none => none
    | some (fp, cs3) =>
      match parseExp cs3 with
      | none => none
      | some (ep, cs4) => some (String.mk (sign ++ ip ++ fp ++ ep), cs4)

mutual

/-- Parse one JSON value (fuel-indexed recursive descent). -/
def parseValue : Nat → List Char → Option (JsonValue × List Char)
  | 0, _ => none
  | fuel + 1, cs =>
    match skipWs cs with
    | 'n' :: 'u' :: 'l' :: 'l' :: rest => some (JsonValue.null, rest)
    | 't' :: 'r' :: 'u' :: 'e' :: rest => some (JsonValue.bool true, rest)
    | 'f' :: 'a' :: 'l' :: 's' :: 'e' :: rest => some (JsonValue.bool false, rest)
    | '"' :: rest =>
      match parseStringChars rest with
      | some (s, r) => some (JsonValue.str (String.mk s), r)
      | none => none
    | '[' :: rest => parseElems fuel (skipWs rest)
    | '{' :: rest => parseMembers fuel (skipWs rest)
    | c :: rest =>
      if c = '-' || c.isDigit then
        match parseNumberLex (c :: rest) with
        | some (lx, r) => some (JsonValue.num lx, r)
        | none => none
      else none
    | [] => none

/-- Parse the elements of a JSON array (the opening bracket consumed,
leading whitespace skipped). -/
def parseElems : Nat → List Char → Option (JsonValue × List Char)
  | 0, _ => none
  | fuel + 1, cs =>
    match cs with
    | ']' :: rest => some (JsonValue.arr [], rest)
    | _ =>
      match parseValue fuel cs with
      | some (v, r) =>
        match skipWs r with
        | ',' :: r2 =>
          (match skipWs r2 with
           | ']' :: _ => none
           | _ =>
             match parseElems fuel (skipWs r2) with
             | some (JsonValue.arr vs, r3) => some (JsonValue.arr (v :: vs), r3)
             | _ => none)
        | ']' :: r2 => some (JsonValue.arr [v], r2)
        | _ => none
      | none => none

/-- Parse the members of a JSON object (the opening brace consumed,
leading whitespace skipped). -/
def parseMembers : Nat → List Char → Option (JsonValue × List Char)
  | 0, _ => none
  | fuel + 1, cs =>
    match cs with
    | '}' :: rest => some (JsonValue.obj [], rest)
    | '"' :: rest =>
      match parseStringChars rest with
      | some (k, r) =>
        (match skipWs r with
         | ':' :: r2 =>
           (match parseValue fuel (skipWs r2) with
            | some (v, r3) =>
              (match skipWs r3 with
               | ',' :: r4 =>
                 (match skipWs r4 with
                  | '"' :: _ =>
                    (match parseMembers fuel (skipWs r4) with
                     | some (JsonValue.obj ms, r5) =>
                       some (JsonValue.obj ((String.mk k, v) :: ms), r5)
                     | _ => none)
                  | _ => none)
               | '}' :: r4 => some (JsonValue.obj [(String.mk k, v)], r4)
               | _ => none)
            | none => none)
         | _ => none)
      | none => none
    | _ => none

end

/-- Model of the platform `JSON.parse`: parse a complete JSON document,
rejecting trailing garbage. -/
def jsonParse (s : String) : Option JsonValue :=
  match parseValue (s.length + 1) s.toList with
  | some (j, rest) => if (skipWs rest).isEmpty then some j else none
  | none => none

/-- Embedding of the response handling of `analyzeContent`
(`src/services/geminiService.ts` lines 125-135): the returned text is
trimmed and handed to `JSON.parse`; the parsed value is returned as-is
(`result as AnalysisResult` is a compile-time cast and performs no
runtime validation), while a parse exception is caught and rethrown as
`Failed to get analysis from AI: ...`. -/
def parseAnalysisResponse (responseText : String) : Except String JsonValue :=
  match jsonParse (jsTrim responseText) with
  | some j => Except.ok j
  | none => Except.error "Failed to get analysis from AI: SyntaxError"

/-- Look up a key among JSON object members (first match, as
JavaScript property access on `JSON.parse` output). -/
def jsonLookup : List (String × JsonValue) → String → Option JsonValue
  | [], _ => none
  | (k', v) :: rest, k => if k' = k then some v else jsonLookup rest k

/-- Modelled from the spec: the required-field check the specification
ascribes to the client ("fails with a `ParseError` if the text is not
well-formed or missing required fields", with required fields
`temperature`, `emotion`, `suggestion`, `explanation` and
`recipientImpact` with both sub-fields).  No such check exists in
`src/services/geminiService.ts`; this definition follows the spec's
declared schema and is compared against the code's behaviour. -/
def specRequiredFieldsPresent : JsonValue → Bool
  | JsonValue.obj ms =>
    (jsonLookup ms "temperature").isSome &&
    (jsonLookup ms "emotion").isSome &&
    (jsonLookup ms "suggestion").isSome &&
    (jsonLookup ms "explanation").isSome &&
    (match jsonLookup ms "recipientImpact" with
     | some (JsonValue.obj rs) =>
       (jsonLookup rs "predictedFeeling").isSome &&
       (jsonLookup rs "impactExplanation").isSome
     | _ => false)
  | _ => false

/-! ## Data model (`src/types.ts`) -/

/-- Nested record of `AnalysisResult` (`src/types.ts`). -/
structure RecipientImpact where
  predictedFeeling : String
  impactExplanation : String
deriving Repr, DecidableEq

/-- The `AnalysisResult` interface of `src/types.ts`. -/
structure AnalysisResult where
  temperature : Int
  emotion : String
  suggestion : String
  explanation : String
  recipientImpact : RecipientImpact
deriving Repr, DecidableEq

/-- Feedback state of the current result (`src/App.tsx` line 54). -/
inductive FeedbackState where
  | none
  | submitted
deriving Repr, DecidableEq

/-- Ghost record of one invocation of `analyzeContent`: the text and
image arguments it was given.  Used to observe which remote calls the
component issues. -/
structure AnalysisCall where
  text : String
  image : Option String
  mime : Option String
deriving Repr, DecidableEq

/-! ## Component state (`src/App.tsx` lines 66-91)

`useState` hooks and `useRef` cells become fields.  Platform handles are
embedded by identity: a `MediaStream` is a numeric identifier, with
`stoppedStreams` recording streams whose tracks have been stopped
(`track.stop()`); `window.setTimeout` / `window.setInterval` hand out
fresh numeric identifiers from the counters `nextTimerId` /
`nextIntervalId`.  `analysisCalls`, `frameCalls` and `frameCaptures` are
ghost instrumentation observing remote calls and canvas captures. -/

structure AppState where
  inputText : String
  imageBase64 : Option String
  imageMimeType : Option String
  analysisResult : Option AnalysisResult
  analysisHistory : List AnalysisResult
  isLoading : Bool
  isAnalyzingFrame : Bool
  error : Option String
  feedbackState : FeedbackState
  isScreenSharing : Bool
  fileInputValue : String
  mediaStream : Option Nat
  stoppedStreams : List Nat
  videoSrcObject : Option Nat
  analysisIntervalId : Option Nat
  nextIntervalId : Nat
  isAnalyzingFrameRef : Bool
  debounceTimer : Option Nat
  nextTimerId : Nat
  analysisCalls : List AnalysisCall
  frameCalls : List AnalysisCall
  frameCaptures : Nat
deriving Repr, DecidableEq

/-- Initial component state after mount (`useState` initialisers of
`src/App.tsx` lines 66-86; the mount-time effect passes leave it
unchanged because all input is empty). -/
def initState : AppState where
  inputText := ""
  imageBase64 := none
  imageMimeType := none
  analysisResult := none
  analysisHistory := []
  isLoading := false
  isAnalyzingFrame := false
  error := none
  feedbackState := .none
  isScreenSharing := false
  fileInputValue := ""
  mediaStream := none
  stoppedStreams := []
  videoSrcObject := none
  analysisIntervalId := none
  nextIntervalId := 0
  isAnalyzingFrameRef := false
  debounceTimer := none
  nextTimerId := 0
  analysisCalls := []
  frameCalls := []
  frameCaptures := 0

/-! ## History append -/

/-- Last `n` elements of a list, as JavaScript `slice(-n)` on an array of
arbitrary length. -/
def takeLast (n : Nat) (l : List α) : List α :=
  l.drop (l.length - n)

/-- Embedding of `prev => [...prev, result].slice(-15)`
(`src/App.tsx` lines 104 and 197). -/
def appendHistory (h : List AnalysisResult) (r : AnalysisResult) : List AnalysisResult :=
  takeLast 15 (h ++ [r])

/-! ## React effect semantics

The two `useEffect` hooks with dependency list
`[inputText, imageBase64, isScreenSharing]` (`src/App.tsx` lines 322-332
and 335-342).  `runEffects` is what happens after a commit whose
dependencies changed: the cleanup of the debounce effect clears the
pending timeout, the debounce effect body arms a fresh one when its
guard passes, and the clear-results effect resets result, error,
feedback and history when all input is empty.  `withEffects` compares
dependencies of the previous and the new commit, as React does. -/

/-- Dependency triple of the two effects. -/
def effectDeps (s : AppState) : String × Option String × Bool :=
  (s.inputText, s.imageBase64, s.isScreenSharing)

/-- Body of the debounced auto-analysis effect (`src/App.tsx` lines
322-332): when screen share is inactive, no image is attached and the
text is non-blank, arm a fresh 1000 ms timeout. -/
def runDebounceEffect (s : AppState) : AppState :=
  if s.isScreenSharing || s.imageBase64.isSome || jsTrim s.inputText == "" then s
  else { s with debounceTimer := some s.nextTimerId, nextTimerId := s.nextTimerId + 1 }

/-- Body of the clear-results effect (`src/App.tsx` lines 335-342): when
all input is empty, reset result, error, feedback and history. -/
def runClearEffect (s : AppState) : AppState :=
  if jsTrim s.inputText == "" && s.imageBase64.isNone && !s.isScreenSharing then
    { s with analysisResult := none, error := none, feedbackState := .none, analysisHistory := [] }
  else s

/-- Run both effects (cleanup of the previous debounce timeout included),
in declaration order. -/
def runEffects (s : AppState) : AppState :=
  runClearEffect (runDebounceEffect { s with debounceTimer := none })

/-- Commit `new` after previous commit `old`, re-running the effects when
their dependencies changed. -/
def withEffects (old new : AppState) : AppState :=
  if effectDeps old = effectDeps new then new else runEffects new

/-! ## Event handlers of `App` (`src/App.tsx`) -/

/-- Begin phase of `handleAnalyze` (`src/App.tsx` lines 93-102): the
guard of line 94, the state updates of lines 96-99, and the issue of the
`analyzeContent` call of line 102 (recorded in `analysisCalls`, passing
`imageBase64 ?? undefined` and `imageMimeType ?? undefined`). -/
def handleAnalyzeBegin (s : AppState) : AppState :=
  if (jsTrim s.inputText == "" && s.imageBase64.isNone) || s.isLoading then s
  else
    { s with
      isLoading := true
      error := none
      analysisResult := none
      feedbackState := .none
      analysisCalls := s.analysisCalls ++ [⟨s.inputText, s.imageBase64, s.imageMimeType⟩] }

/-- Completion phase of `handleAnalyze` (`src/App.tsx` lines 102-109):
on success store the result and append it to the capped history; on
failure store the error message; `finally` clear `isLoading`. -/
def handleAnalyzeDone (s : AppState) (outcome : Except String AnalysisResult) : AppState :=
  match outcome with
  | Except.ok r =>
    { s with
      analysisResult := some r
      analysisHistory := appendHistory s.analysisHistory r
      isLoading := false }
  | Except.error msg => { s with error := some msg, isLoading := false }

/-- `handleRemoveImage` (`src/App.tsx` lines 149-155). -/
def handleRemoveImage (s : AppState) : AppState :=
  { s with imageBase64 := none, imageMimeType := none, fileInputValue := "" }

/-- `stopScreenSharing` (`src/App.tsx` lines 157-171): cancel the
interval if one is set, stop every track of the stream and drop it if
one is held, detach the video sink, leave screen-share mode and clear
the displayed result. -/
def stopScreenSharing (s : AppState) : AppState :=
  let s1 :=
    match s.analysisIntervalId with
    | some _ => { s with analysisIntervalId := none }
    | none => s
  let s2 :=
    match s1.mediaStream with
    | some ms => { s1 with stoppedStreams := ms :: s1.stoppedStreams, mediaStream := none }
    | none => s1
  let s3 := { s2 with videoSrcObject := none }
  { s3 with isScreenSharing := false, analysisResult := none }

/-- Begin phase of `analyzeFrame` (`src/App.tsx` lines 173-194): the
overlap/ref guard of line 174 (`videoOk`/`canvasOk` stand for
`videoRef.current`/`canvasRef.current` being non-null), setting the
in-flight flag, the 2d-context null path of lines 183-186, the canvas
capture (counted in `frameCaptures`), the state updates of lines
190-192, and the issue of the `analyzeContent` call of line 194 with the
captured frame (recorded in `frameCalls`).  The returned boolean tells
whether a remote call was issued. -/
def analyzeFrameBegin (s : AppState) (videoOk canvasOk ctxOk : Bool) (frame : String) :
    AppState × Bool :=
  if s.isAnalyzingFrameRef || !videoOk || !canvasOk then (s, false)
  else
    let s1 := { s with isAnalyzingFrameRef := true }
    if !ctxOk then ({ s1 with isAnalyzingFrameRef := false }, false)
    else
      let s2 := { s1 with frameCaptures := s1.frameCaptures + 1 }
      ({ s2 with
          isAnalyzingFrame := true
          error := none
          feedbackState := .none
          frameCalls := s2.frameCalls ++ [⟨s2.inputText, some frame, some "image/jpeg"⟩] },
        true)

/-- Completion phase of `analyzeFrame` (`src/App.tsx` lines 194-205): a
successful result is applied (displayed and appended to the capped
history) only when `mediaStreamRef.current` is still set; a failure
stores the error message and tears the whole screen-share session down
via `stopScreenSharing`; `finally` clear both in-flight markers. -/
def analyzeFrameDone (s : AppState) (outcome : Except String AnalysisResult) : AppState :=
  let s1 :=
    match outcome with
    | Except.ok r =>
      if s.mediaStream.isSome then
        { s with
          analysisResult := some r
          analysisHistory := appendHistory s.analysisHistory r }
      else s
    | Except.error msg => stopScreenSharing { s with error := some msg }
  { s1 with isAnalyzingFrame := false, isAnalyzingFrameRef := false }

/-- `handleImageChange` (`src/App.tsx` lines 130-147) for a selected
file of `fileSize` bytes: reject files over the 4 MB limit before
anything else (the error message is modelled by its translation key,
the `translations` module not being part of the sources); otherwise stop
any screen share (a state commit at the `await fileToBase64` boundary,
hence `withEffects`), then either store the decoded image and clear the
error, or report a decode failure. -/
def handleImageChange (s : AppState) (fileSize : Nat) (fileData fileMime : String)
    (decodeOk : Bool) : AppState :=
  if 4 * 1024 * 1024 < fileSize then { s with error := some "imageSizeError" }
  else
    let s1 := withEffects s (stopScreenSharing s)
    if decodeOk then
      withEffects s1
        { s1 with imageBase64 := some fileData, imageMimeType := some fileMime, error := none }
    else withEffects s1 { s1 with error := some "imageLoadError" }

/-- `startScreenSharing` (`src/App.tsx` lines 213-233): remove any
uploaded image (a commit at the `await getDisplayMedia` boundary), then
on a granted stream attach it, enter screen-share mode and start the
5000 ms interval; on denial report the failure and stay out of
screen-share mode. -/
def startScreenSharing (s : AppState) (grant : Option Nat) : AppState :=
  let s1 := withEffects s (handleRemoveImage s)
  match grant with
  | some streamId =>
    let s2 :=
      { s1 with
        mediaStream := some streamId
        videoSrcObject := some streamId
        isScreenSharing := true }
    withEffects s1
      { s2 with
        analysisIntervalId := some s2.nextIntervalId
        nextIntervalId := s2.nextIntervalId + 1 }
  | none =>
    withEffects s1
      { s1 with
        error := some "Failed to start screen sharing. Please ensure permissions are granted."
        isScreenSharing := false }

/-- Disabled condition of the analyze button (`src/App.tsx` line 500). -/
def analyzeButtonDisabled (s : AppState) : Bool :=
  s.isLoading || (jsTrim s.inputText == "" && s.imageBase64.isNone) || s.isScreenSharing

/-! ## Event-driven execution

One step of the UI event loop.  Every suspension point of the component
is an event: text edits, the debounce timeout firing, the analyze button,
completion of a manual/auto `analyzeContent` call, an interval tick,
completion of a frame `analyzeContent` call, the image controls, the
share button and the platform track-ended notification.  Completion
events are delivered only while the corresponding call is in flight, a
timeout only while it is still pending, and an interval tick only while
the interval is alive — as the platform scheduler guarantees. -/

inductive Ev where
  | textChange (t : String)
  | debounceFire (id : Nat)
  | analyzeClick
  | analyzeDone (outcome : Except String AnalysisResult)
  | frameTick (ctxOk : Bool) (frame : String)
  | frameDone (outcome : Except String AnalysisResult)
  | removeImageClick
  | fileSelected (size : Nat) (data mime : String) (decodeOk : Bool)
  | shareClick (grant : Option Nat)
  | trackEnded

/-- One step of the event loop.  The `video` element is mounted exactly
while `isScreenSharing` (`src/App.tsx` line 435), the canvas always
(line 431); the analyze and share buttons carry their disabled
conditions (lines 491, 500); the remove-image button is rendered only
with an uploaded image and no active share (line 448); a file selection
is delivered ungated, since the dialog opened by the upload button can
resolve after the state has changed. -/
def step (s : AppState) (e : Ev) : AppState :=
  match e with
  | .textChange t =>
    if t = s.inputText then s else withEffects s { s with inputText := t }
  | .debounceFire id =>
    if s.debounceTimer = some id then
      withEffects s (handleAnalyzeBegin { s with debounceTimer := none })
    else s
  | .analyzeClick =>
    if analyzeButtonDisabled s then s else withEffects s (handleAnalyzeBegin s)
  | .analyzeDone outcome =>
    if s.isLoading then withEffects s (handleAnalyzeDone s outcome) else s
  | .frameTick ctxOk frame =>
    if s.analysisIntervalId.isSome then
      withEffects s (analyzeFrameBegin s s.isScreenSharing true ctxOk frame).fst
    else s
  | .frameDone outcome =>
    if s.isAnalyzingFrameRef then withEffects s (analyzeFrameDone s outcome) else s
  | .removeImageClick =>
    if s.imageBase64.isSome && !s.isScreenSharing then withEffects s (handleRemoveImage s)
    else s
  | .fileSelected size data mime decodeOk =>
    handleImageChange s size data mime decodeOk
  | .shareClick grant =>
    if s.isLoading then s
    else if s.isScreenSharing then withEffects s (stopScreenSharing s)
    else startScreenSharing s grant
  | .trackEnded => withEffects s (stopScreenSharing s)

/-- Run a sequence of events from a state. -/
def steps (s : AppState) (evs : List Ev) : AppState :=
  evs.foldl step s

/-- A burst of text edits. -/
def burst (s : AppState) (ts : List String) : AppState :=
  ts.foldl (fun a t => step a (.textChange t)) s

/-! ## Helper lemmas -/

theorem takeLast_length (n : Nat) (l : List α) : (takeLast n l).length = min l.length n := by
  simp [takeLast]
  omega

theorem takeLast_of_length_le (n : Nat) (l : List α) (h : l.length ≤ n) :
    takeLast n l = l := by
  simp [takeLast, Nat.sub_eq_zero_of_le h]

theorem takeLast_drop (n k : Nat) (l : List α) (h : n + k ≤ l.length) :
    takeLast n (l.drop k) = takeLast n l := by
  simp only [takeLast, List.drop_drop, List.length_drop]
  congr 1
  omega

theorem appendHistory_takeLast (p : List AnalysisResult) (r : AnalysisResult) :
    appendHistory (takeLast 15 p) r = takeLast 15 (p ++ [r]) := by
  by_cases h : p.length ≤ 15
  · rw [takeLast_of_length_le 15 p h]; rfl
  · have hd : List.drop (p.length - 15) p ++ [r] = List.drop (p.length - 15) (p ++ [r]) :=
      (List.drop_append_of_le_length (by omega)).symm
    show takeLast 15 (List.drop (p.length - 15) p ++ [r]) = takeLast 15 (p ++ [r])
    rw [hd]
    exact takeLast_drop 15 (p.length - 15) (p ++ [r]) (by simp; omega)

theorem foldl_appendHistory (rs : List AnalysisResult) :
    ∀ (p h : List AnalysisResult), h = takeLast 15 p →
      rs.foldl appendHistory h = takeLast 15 (p ++ rs) := by
  induction rs with
  | nil => intro p h hh; simpa using hh
  | cons r rest ih =>
    intro p h hh
    simp only [List.foldl_cons]
    have := ih (p ++ [r]) (appendHistory h r) (by rw [hh, appendHistory_takeLast])
    simpa using this

theorem stopScreenSharing_spec (s : AppState) :
    (stopScreenSharing s).analysisIntervalId = none
  ∧ (stopScreenSharing s).mediaStream = none
  ∧ (stopScreenSharing s).videoSrcObject = none
  ∧ (stopScreenSharing s).isScreenSharing = false
  ∧ (stopScreenSharing s).analysisResult = none
  ∧ (stopScreenSharing s).analysisHistory = s.analysisHistory
  ∧ (stopScreenSharing s).inputText = s.inputText
  ∧ (stopScreenSharing s).imageBase64 = s.imageBase64
  ∧ (stopScreenSharing s).imageMimeType = s.imageMimeType
  ∧ (stopScreenSharing s).error = s.error
  ∧ (stopScreenSharing s).isLoading = s.isLoading
  ∧ (stopScreenSharing s).isAnalyzingFrame = s.isAnalyzingFrame
  ∧ (stopScreenSharing s).isAnalyzingFrameRef = s.isAnalyzingFrameRef
  ∧ (stopScreenSharing s).analysisCalls = s.analysisCalls
  ∧ (stopScreenSharing s).frameCalls = s.frameCalls
  ∧ (stopScreenSharing s).debounceTimer = s.debounceTimer
  ∧ (stopScreenSharing s).nextTimerId = s.nextTimerId
  ∧ (stopScreenSharing s).feedbackState = s.feedbackState
  ∧ (stopScreenSharing s).frameCaptures = s.frameCaptures := by
  cases h1 : s.analysisIntervalId <;> cases h2 : s.mediaStream <;>
    simp [stopScreenSharing, h1, h2]

theorem stopScreenSharing_stops_tracks (s : AppState) (ms : Nat)
    (h : s.mediaStream = some ms) : ms ∈ (stopScreenSharing s).stoppedStreams := by
  cases h1 : s.analysisIntervalId <;> simp [stopScreenSharing, h1, h]

theorem runEffects_pres (s : AppState) :
    (runEffects s).imageBase64 = s.imageBase64
  ∧ (runEffects s).imageMimeType = s.imageMimeType
  ∧ (runEffects s).isScreenSharing = s.isScreenSharing
  ∧ (runEffects s).inputText = s.inputText
  ∧ (runEffects s).isLoading = s.isLoading
  ∧ (runEffects s).isAnalyzingFrame = s.isAnalyzingFrame
  ∧ (runEffects s).isAnalyzingFrameRef = s.isAnalyzingFrameRef
  ∧ (runEffects s).mediaStream = s.mediaStream
  ∧ (runEffects s).stoppedStreams = s.stoppedStreams
  ∧ (runEffects s).videoSrcObject = s.videoSrcObject
  ∧ (runEffects s).analysisIntervalId = s.analysisIntervalId
  ∧ (runEffects s).analysisCalls = s.analysisCalls
  ∧ (runEffects s).frameCalls = s.frameCalls
  ∧ (runEffects s).frameCaptures = s.frameCaptures
  ∧ (runEffects s).fileInputValue = s.fileInputValue := by
  unfold runEffects runClearEffect runDebounceEffect
  split <;> split <;> simp_all

theorem withEffects_pres (o n : AppState) :
    (withEffects o n).imageBase64 = n.imageBase64
  ∧ (withEffects o n).imageMimeType = n.imageMimeType
  ∧ (withEffects o n).isScreenSharing = n.isScreenSharing
  ∧ (withEffects o n).inputText = n.inputText
  ∧ (withEffects o n).isLoading = n.isLoading
  ∧ (withEffects o n).isAnalyzingFrame = n.isAnalyzingFrame
  ∧ (withEffects o n).isAnalyzingFrameRef = n.isAnalyzingFrameRef
  ∧ (withEffects o n).mediaStream = n.mediaStream
  ∧ (withEffects o n).stoppedStreams = n.stoppedStreams
  ∧ (withEffects o n).videoSrcObject = n.videoSrcObject
  ∧ (withEffects o n).analysisIntervalId = n.analysisIntervalId
  ∧ (withEffects o n).analysisCalls = n.analysisCalls
  ∧ (withEffects o n).frameCalls = n.frameCalls
  ∧ (withEffects o n).frameCaptures = n.frameCaptures
  ∧ (withEffects o n).fileInputValue = n.fileInputValue := by
  unfold withEffects
  split
  · simp
  · exact runEffects_pres n

theorem withEffects_of_deps_eq (o n : AppState) (h : effectDeps o = effectDeps n) :
    withEffects o n = n := by
  simp [withEffects, h]

theorem handleAnalyzeBegin_pres (s : AppState) :
    (handleAnalyzeBegin s).inputText = s.inputText
  ∧ (handleAnalyzeBegin s).imageBase64 = s.imageBase64
  ∧ (handleAnalyzeBegin s).imageMimeType = s.imageMimeType
  ∧ (handleAnalyzeBegin s).isScreenSharing = s.isScreenSharing
  ∧ (handleAnalyzeBegin s).analysisHistory = s.analysisHistory
  ∧ (handleAnalyzeBegin s).frameCalls = s.frameCalls
  ∧ (handleAnalyzeBegin s).mediaStream = s.mediaStream := by
  unfold handleAnalyzeBegin
  split <;> simp

theorem handleAnalyzeDone_pres (s : AppState) (oc : Except String AnalysisResult) :
    (handleAnalyzeDone s oc).imageBase64 = s.imageBase64
  ∧ (handleAnalyzeDone s oc).isScreenSharing = s.isScreenSharing
  ∧ (handleAnalyzeDone s oc).inputText = s.inputText
  ∧ (handleAnalyzeDone s oc).imageMimeType = s.imageMimeType := by
  cases oc <;> simp [handleAnalyzeDone]

theorem analyzeFrameBegin_pres (s : AppState) (v c k : Bool) (f : String) :
    (analyzeFrameBegin s v c k f).fst.imageBase64 = s.imageBase64
  ∧ (analyzeFrameBegin s v c k f).fst.isScreenSharing = s.isScreenSharing
  ∧ (analyzeFrameBegin s v c k f).fst.inputText = s.inputText := by
  unfold analyzeFrameBegin
  split
  · simp
  · split <;> simp

theorem analyzeFrameDoneOk_pres (s : AppState) (r : AnalysisResult) :
    (analyzeFrameDone s (Except.ok r)).imageBase64 = s.imageBase64
  ∧ (analyzeFrameDone s (Except.ok r)).isScreenSharing = s.isScreenSharing
  ∧ (analyzeFrameDone s (Except.ok r)).inputText = s.inputText
  ∧ (analyzeFrameDone s (Except.ok r)).mediaStream = s.mediaStream := by
  simp only [analyzeFrameDone]
  split <;> simp

/-- Mutual exclusivity of the image slot's capture modes: an uploaded
image and an active screen share never coexist. -/
def captureModesExclusive (s : AppState) : Prop :=
  s.imageBase64.isSome = true → s.isScreenSharing = false

theorem handleImageChange_exclusive (s : AppState) (size : Nat) (d m : String) (ok : Bool)
    (h : captureModesExclusive s) :
    captureModesExclusive (handleImageChange s size d m ok) := by
  unfold handleImageChange
  split
  · exact h
  · intro _
    split <;>
      simp [(withEffects_pres _ _).2.2.1, (withEffects_pres _ _).2.2.1,
        (stopScreenSharing_spec s).2.2.2.1]

theorem startScreenSharing_exclusive (s : AppState) (grant : Option Nat) :
    captureModesExclusive (startScreenSharing s grant) := by
  unfold startScreenSharing
  cases grant <;>
    intro himg <;>
    rw [(withEffects_pres _ _).1] at himg <;>
    simp_all [(withEffects_pres _ _).1, handleRemoveImage]

theorem step_preserves_exclusive (s : AppState) (e : Ev)
    (h : captureModesExclusive s) : captureModesExclusive (step s e) := by
  cases e with
  | textChange t =>
    simp only [step]
    split
    · exact h
    · intro himg
      rw [(withEffects_pres _ _).1] at himg
      rw [(withEffects_pres _ _).2.2.1]
      exact h himg
  | debounceFire id =>
    simp only [step]
    split
    · intro himg
      rw [(withEffects_pres _ _).1, (handleAnalyzeBegin_pres _).2.1] at himg
      rw [(withEffects_pres _ _).2.2.1, (handleAnalyzeBegin_pres _).2.2.2.1]
      exact h himg
    · exact h
  | analyzeClick =>
    simp only [step]
    split
    · exact h
    · intro himg
      rw [(withEffects_pres _ _).1, (handleAnalyzeBegin_pres _).2.1] at himg
      rw [(withEffects_pres _ _).2.2.1, (handleAnalyzeBegin_pres _).2.2.2.1]
      exact h himg
  | analyzeDone oc =>
    simp only [step]
    split
    · intro himg
      rw [(withEffects_pres _ _).1, (handleAnalyzeDone_pres _ _).1] at himg
      rw [(withEffects_pres _ _).2.2.1, (handleAnalyzeDone_pres _ _).2.1]
      exact h himg
    · exact h
  | frameTick k f =>
    simp only [step]
    split
    · intro himg
      rw [(withEffects_pres _ _).1, (analyzeFrameBegin_pres _ _ _ _ _).1] at himg
      rw [(withEffects_pres _ _).2.2.1, (analyzeFrameBegin_pres _ _ _ _ _).2.1]
      exact h himg
    · exact h
  | frameDone oc =>
    simp only [step]
    split
    · cases oc with
      | ok r =>
        intro himg
        rw [(withEffects_pres _ _).1, (analyzeFrameDoneOk_pres _ _).1] at himg
        rw [(withEffects_pres _ _).2.2.1, (analyzeFrameDoneOk_pres _ _).2.1]
        exact h himg
      | error msg =>
        intro _
        rw [(withEffects_pres _ _).2.2.1]
        show (analyzeFrameDone _ (Except.error msg)).isScreenSharing = false
        unfold analyzeFrameDone
        simp [(stopScreenSharing_spec _).2.2.2.1]
    · exact h
  | removeImageClick =>
    simp only [step]
    split
    · intro himg
      rw [(withEffects_pres _ _).1] at himg
      simp [handleRemoveImage] at himg
    · exact h
  | fileSelected size d m ok => exact handleImageChange_exclusive s size d m ok h
  | shareClick grant =>
    simp only [step]
    split
    · exact h
    · split
      · intro _
        rw [(withEffects_pres _ _).2.2.1]
        exact (stopScreenSharing_spec _).2.2.2.1
      · exact startScreenSharing_exclusive s grant
  | trackEnded =>
    simp only [step]
    intro _
    rw [(withEffects_pres _ _).2.2.1]
    exact (stopScreenSharing_spec _).2.2.2.1

theorem steps_preserves_exclusive (evs : List Ev) :
    ∀ s : AppState, captureModesExclusive s → captureModesExclusive (steps s evs) := by
  induction evs with
  | nil => intro s h; exact h
  | cons e rest ih =>
    intro s h
    exact ih (step s e) (step_preserves_exclusive s e h)

theorem manual_ok_fold_history (rs : List AnalysisResult) :
    ∀ s : AppState,
      (rs.foldl (fun a r => handleAnalyzeDone a (Except.ok r)) s).analysisHistory
        = rs.foldl appendHistory s.analysisHistory := by
  induction rs with
  | nil => intro s; rfl
  | cons r rest ih =>
    intro s
    simp only [List.foldl_cons]
    rw [ih]
    rfl

theorem analyzeFrameDoneOk_history (s : AppState) (r : AnalysisResult)
    (h : s.mediaStream.isSome = true) :
    (analyzeFrameDone s (Except.ok r)).analysisHistory = appendHistory s.analysisHistory r := by
  simp [analyzeFrameDone, h]

theorem frame_ok_fold_history (rs : List AnalysisResult) :
    ∀ s : AppState, s.mediaStream.isSome = true →
      (rs.foldl (fun a r => analyzeFrameDone a (Except.ok r)) s).analysisHistory
        = rs.foldl appendHistory s.analysisHistory := by
  induction rs with
  | nil => intro s _; rfl
  | cons r rest ih =>
    intro s h
    simp only [List.foldl_cons]
    rw [ih _ (by rw [(analyzeFrameDoneOk_pres s r).2.2.2]; exact h),
      analyzeFrameDoneOk_history s r h]

theorem analyzeFrameDoneErr_interval (s : AppState) (msg : String) :
    (analyzeFrameDone s (Except.error msg)).analysisIntervalId = none := by
  simp [analyzeFrameDone, (stopScreenSharing_spec _).1]

/-! ## Concrete fixtures for witness instances -/

/-- Sample analysis result. -/
def sampleResult (n : Nat) : AnalysisResult :=
  ⟨(n : Int), "Neutral", "suggestion", "explanation", ⟨"Understood", "ok"⟩⟩

/-- A list of `n` distinct sample results. -/
def sampleResults (n : Nat) : List AnalysisResult :=
  (List.range n).map sampleResult

/-- A state with an active screen-share session (stream 0 attached,
interval running). -/
def shareState : AppState :=
  { initState with
      mediaStream := some 0
      videoSrcObject := some 0
      isScreenSharing := true
      analysisIntervalId := some 0
      nextIntervalId := 1 }

/-- A state whose frame-analysis in-flight flag is set. -/
def busyState : AppState :=
  { shareState with isAnalyzingFrameRef := true, isAnalyzingFrame := true }

/-! ## Claims -/

/-- C2: the analysis history is bounded by 15 entries with FIFO eviction
of the oldest.  For every sequence of successful analyses appended by
the manual/auto flow (`handleAnalyzeDone` on `Except.ok`) or by the
frame flow (`analyzeFrameDone` on `Except.ok`, stream still attached),
starting from a history within the bound, the history afterwards is
exactly the last 15 of the old history followed by the results in
completion order; `takeLast 15` keeps `min n 15` entries, and for 20
sequential successes from an empty history the history is exactly the
last 15 results, of length 15. -/
theorem history_capped_at_15 :
    (∀ (s : AppState) (rs : List AnalysisResult), s.analysisHistory.length ≤ 15 →
        (rs.foldl (fun a r => handleAnalyzeDone a (Except.ok r)) s).analysisHistory
          = takeLast 15 (s.analysisHistory ++ rs))
  ∧ (∀ (s : AppState) (rs : List AnalysisResult), s.mediaStream.isSome = true →
        s.analysisHistory.length ≤ 15 →
        (rs.foldl (fun a r => analyzeFrameDone a (Except.ok r)) s).analysisHistory
          = takeLast 15 (s.analysisHistory ++ rs))
  ∧ (∀ rs : List AnalysisResult, (takeLast 15 rs).length = min rs.length 15)
  ∧ (∀ rs : List AnalysisResult, rs.length = 20 →
        rs.foldl appendHistory [] = rs.drop 5
      ∧ (rs.foldl appendHistory []).length = 15) := by
  refine ⟨?_, ?_, ?_, ?_⟩
  · intro s rs hlen
    rw [manual_ok_fold_history rs s]
    exact foldl_appendHistory rs s.analysisHistory s.analysisHistory
      (takeLast_of_length_le 15 _ hlen).symm
  · intro s rs hms hlen
    rw [frame_ok_fold_history rs s hms]
    exact foldl_appendHistory rs s.analysisHistory s.analysisHistory
      (takeLast_of_length_le 15 _ hlen).symm
  · intro rs
    exact takeLast_length 15 rs
  · intro rs hlen
    have h := foldl_appendHistory rs [] [] rfl
    simp only [List.nil_append] at h
    refine ⟨?_, ?_⟩
    · rw [h]
      simp [takeLast, hlen]
    · rw [h, takeLast_length, hlen]
      rfl

/-- C2 witness: 20 frame successes on an active share from an empty
history leave exactly the last 15 results. -/
theorem history_capped_at_15_witness :
    ((sampleResults 20).foldl (fun a r => analyzeFrameDone a (Except.ok r))
        shareState).analysisHistory
      = takeLast 15 (shareState.analysisHistory ++ sampleResults 20)
  ∧ (sampleResults 20).foldl appendHistory [] = (sampleResults 20).drop 5
  ∧ ((sampleResults 20).foldl appendHistory []).length = 15 :=
  ⟨history_capped_at_15.2.1 shareState (sampleResults 20) rfl (by decide),
   (history_capped_at_15.2.2.2 (sampleResults 20) (by decide)).1,
   (history_capped_at_15.2.2.2 (sampleResults 20) (by decide)).2⟩

/-- C3: a frame result completing after `stopScreenSharing` is discarded
— the displayed result stays `none` and the history is untouched; in
general a successful frame result is applied to state exactly when the
capture stream is still attached at completion. -/
theorem late_frame_result_discarded :
    (∀ (s : AppState) (r : AnalysisResult),
        (analyzeFrameDone (stopScreenSharing s) (Except.ok r)).analysisResult = none
      ∧ (analyzeFrameDone (stopScreenSharing s) (Except.ok r)).analysisHistory
          = s.analysisHistory)
  ∧ (∀ (s : AppState) (r : AnalysisResult), s.mediaStream = none →
        analyzeFrameDone s (Except.ok r)
          = { s with isAnalyzingFrame := false, isAnalyzingFrameRef := false })
  ∧ (∀ (s : AppState) (r : AnalysisResult), s.mediaStream.isSome = true →
        (analyzeFrameDone s (Except.ok r)).analysisResult = some r
      ∧ (analyzeFrameDone s (Except.ok r)).analysisHistory
          = appendHistory s.analysisHistory r) := by
  refine ⟨?_, ?_, ?_⟩
  · intro s r
    obtain ⟨-, h2, -, -, h5, h6, -⟩ := stopScreenSharing_spec s
    constructor
    · simp [analyzeFrameDone, h2, h5]
    · simp [analyzeFrameDone, h2, h6]
  · intro s r h
    simp [analyzeFrameDone, h]
  · intro s r h
    constructor <;> simp [analyzeFrameDone, h]

/-- C3 witness: stop the share on `shareState`, then complete the
pending frame call — the result stays `none`; with a stream attached the
same completion is applied. -/
theorem late_frame_result_discarded_witness :
    (analyzeFrameDone (stopScreenSharing shareState) (Except.ok (sampleResult 1))).analysisResult
        = none
  ∧ (analyzeFrameDone { initState with mediaStream := some 5 }
        (Except.ok (sampleResult 2))).analysisResult = some (sampleResult 2) :=
  ⟨(late_frame_result_discarded.1 shareState (sampleResult 1)).1,
   (late_frame_result_discarded.2.2 { initState with mediaStream := some 5 }
      (sampleResult 2) rfl).1⟩

/-- C4: a failed frame analysis tears the whole screen-share session
down — interval cancelled (so a subsequent tick is not delivered),
stream dropped with its tracks stopped, video sink detached, in-progress
result cleared — in addition to surfacing the error; a failed
manual/auto analysis only records the error and clears the loading flag,
changing nothing else. -/
theorem frame_failure_teardown :
    (∀ (s : AppState) (msg : String),
        (analyzeFrameDone s (Except.error msg)).analysisIntervalId = none
      ∧ (analyzeFrameDone s (Except.error msg)).mediaStream = none
      ∧ (analyzeFrameDone s (Except.error msg)).videoSrcObject = none
      ∧ (analyzeFrameDone s (Except.error msg)).isScreenSharing = false
      ∧ (analyzeFrameDone s (Except.error msg)).analysisResult = none
      ∧ (analyzeFrameDone s (Except.error msg)).error = some msg
      ∧ (analyzeFrameDone s (Except.error msg)).isAnalyzingFrame = false
      ∧ (analyzeFrameDone s (Except.error msg)).isAnalyzingFrameRef = false)
  ∧ (∀ (s : AppState) (msg : String) (ms : Nat), s.mediaStream = some ms →
        ms ∈ (analyzeFrameDone s (Except.error msg)).stoppedStreams)
  ∧ (∀ (s : AppState) (msg : String) (ctxOk : Bool) (frame : String),
        step (analyzeFrameDone s (Except.error msg)) (Ev.frameTick ctxOk frame)
          = analyzeFrameDone s (Except.error msg))
  ∧ (∀ (s : AppState) (msg : String),
        handleAnalyzeDone s (Except.error msg)
          = { s with error := some msg, isLoading := false }) := by
  refine ⟨?_, ?_, ?_, ?_⟩
  · intro s msg
    obtain ⟨h1, h2, h3, h4, h5, -, -, -, -, h10, -⟩ :=
      stopScreenSharing_spec { s with error := some msg }
    refine ⟨by simp [analyzeFrameDone, h1], by simp [analyzeFrameDone, h2],
      by simp [analyzeFrameDone, h3], by simp [analyzeFrameDone, h4],
      by simp [analyzeFrameDone, h5], by simpa [analyzeFrameDone] using h10,
      by simp [analyzeFrameDone], by simp [analyzeFrameDone]⟩
  · intro s msg ms h
    have := stopScreenSharing_stops_tracks { s with error := some msg } ms (by simpa using h)
    simpa [analyzeFrameDone] using this
  · intro s msg k f
    simp [step, analyzeFrameDoneErr_interval s msg]
  · intro s msg
    rfl

/-- C4 witness: a frame failure on the active session stops the tracks
of stream 0. -/
theorem frame_failure_teardown_witness :
    0 ∈ (analyzeFrameDone shareState (Except.error "boom")).stoppedStreams :=
  frame_failure_teardown.2.1 shareState "boom" 0 rfl

/-- C5: at most one frame analysis is in flight — a tick arriving while
the in-flight flag is set changes nothing and issues no capture and no
call (skipped, not queued); a call is only issued from a clear flag and
sets it; and every completion path (2d-context failure, success,
failure) clears the flag again. -/
theorem frame_overlap_guard :
    (∀ (s : AppState) (v c k : Bool) (f : String), s.isAnalyzingFrameRef = true →
        analyzeFrameBegin s v c k f = (s, false))
  ∧ (∀ (s : AppState) (k : Bool) (f : String), s.isAnalyzingFrameRef = true →
        step s (Ev.frameTick k f) = s)
  ∧ (∀ (s : AppState) (v c k : Bool) (f : String),
        (analyzeFrameBegin s v c k f).snd = true →
          s.isAnalyzingFrameRef = false
        ∧ (analyzeFrameBegin s v c k f).fst.isAnalyzingFrameRef = true)
  ∧ (∀ (s : AppState) (v c : Bool) (f : String), s.isAnalyzingFrameRef = false →
        (analyzeFrameBegin s v c false f).fst.isAnalyzingFrameRef = false)
  ∧ (∀ (s : AppState) (oc : Except String AnalysisResult),
        (analyzeFrameDone s oc).isAnalyzingFrameRef = false
      ∧ (analyzeFrameDone s oc).isAnalyzingFrame = false) := by
  refine ⟨?_, ?_, ?_, ?_, ?_⟩
  · intro s v c k f h
    simp [analyzeFrameBegin, h]
  · intro s k f h
    simp only [step]
    split
    · rw [show analyzeFrameBegin s s.isScreenSharing true k f = (s, false) from
        by simp [analyzeFrameBegin, h]]
      exact withEffects_of_deps_eq s s rfl
    · rfl
  · intro s v c k f h
    by_cases hg : (s.isAnalyzingFrameRef || !v || !c) = true
    · simp [analyzeFrameBegin, hg] at h
    · have hflag : s.isAnalyzingFrameRef = false := by
        revert hg
        cases s.isAnalyzingFrameRef <;> simp
      by_cases hk : k = true
      · exact ⟨hflag, by simp [analyzeFrameBegin, hg, hk]⟩
      · rw [show k = false from by revert hk; cases k <;> simp] at h
        simp [analyzeFrameBegin, hg] at h
  · intro s v c f h
    by_cases hv : v = true <;> by_cases hc : c = true <;>
      simp [analyzeFrameBegin, h, hv, hc]
  · intro s oc
    cases oc <;> simp [analyzeFrameDone]

/-- C5 witness: a tick on a state whose in-flight flag is set is a
no-op. -/
theorem frame_overlap_guard_witness :
    analyzeFrameBegin busyState true true true "frame" = (busyState, false)
  ∧ step busyState (Ev.frameTick true "frame") = busyState :=
  ⟨frame_overlap_guard.1 busyState true true true "frame" rfl,
   frame_overlap_guard.2.1 busyState true "frame" rfl⟩

theorem withEffects_imageBase64 (o n : AppState) :
    (withEffects o n).imageBase64 = n.imageBase64 := (withEffects_pres o n).1

theorem withEffects_imageMimeType (o n : AppState) :
    (withEffects o n).imageMimeType = n.imageMimeType := (withEffects_pres o n).2.1

theorem withEffects_isScreenSharing (o n : AppState) :
    (withEffects o n).isScreenSharing = n.isScreenSharing := (withEffects_pres o n).2.2.1

theorem withEffects_inputText (o n : AppState) :
    (withEffects o n).inputText = n.inputText := (withEffects_pres o n).2.2.2.1

theorem withEffects_isLoading (o n : AppState) :
    (withEffects o n).isLoading = n.isLoading := (withEffects_pres o n).2.2.2.2.1

theorem withEffects_analysisCalls (o n : AppState) :
    (withEffects o n).analysisCalls = n.analysisCalls :=
  (withEffects_pres o n).2.2.2.2.2.2.2.2.2.2.2.1

theorem withEffects_frameCalls (o n : AppState) :
    (withEffects o n).frameCalls = n.frameCalls :=
  (withEffects_pres o n).2.2.2.2.2.2.2.2.2.2.2.2.1

theorem runEffects_error_of_image (s : AppState) (h : s.imageBase64.isSome = true) :
    (runEffects s).error = s.error := by
  cases him : s.imageBase64 with
  | none => rw [him] at h; simp at h
  | some v => simp [runEffects, runDebounceEffect, runClearEffect, him]

theorem withEffects_error_of_image (o n : AppState) (h : n.imageBase64.isSome = true) :
    (withEffects o n).error = n.error := by
  unfold withEffects
  split
  · rfl
  · exact runEffects_error_of_image n h

/-- C6: the capture modes of the image slot are mutually exclusive: no
state reachable from the initial one by any event sequence holds both an
uploaded image and an active screen share; accepting an upload ends in a
state with the image stored and the share stopped, and starting a share
ends with the uploaded image cleared. -/
theorem capture_modes_mutually_exclusive :
    (∀ evs : List Ev, ¬((steps initState evs).imageBase64.isSome = true
        ∧ (steps initState evs).isScreenSharing = true))
  ∧ (∀ (s : AppState) (size : Nat) (d m : String), size ≤ 4 * 1024 * 1024 →
        (handleImageChange s size d m true).isScreenSharing = false
      ∧ (handleImageChange s size d m true).imageBase64 = some d)
  ∧ (∀ (s : AppState) (streamId : Nat),
        (startScreenSharing s (some streamId)).imageBase64 = none
      ∧ (startScreenSharing s (some streamId)).isScreenSharing = true) := by
  refine ⟨?_, ?_, ?_⟩
  · intro evs h
    exact absurd
      (steps_preserves_exclusive evs initState (by intro h0; simp [initState] at h0) h.1)
      (by simp [h.2])
  · intro s size d m hsz
    have hif : ¬(4 * 1024 * 1024 < size) := by omega
    constructor
    · simp [handleImageChange, hif, withEffects_isScreenSharing,
        (stopScreenSharing_spec s).2.2.2.1]
    · simp [handleImageChange, hif, withEffects_imageBase64]
  · intro s streamId
    constructor
    · simp [startScreenSharing, withEffects_imageBase64, handleRemoveImage]
    · simp [startScreenSharing, withEffects_isScreenSharing]

/-- C6 witness: an upload accepted while a share is active ends with the
share stopped and the image stored. -/
theorem capture_modes_mutually_exclusive_witness :
    (handleImageChange shareState 10 "imgdata" "image/png" true).isScreenSharing = false
  ∧ (handleImageChange shareState 10 "imgdata" "image/png" true).imageBase64 = some "imgdata"
  ∧ (startScreenSharing { initState with imageBase64 := some "old" } (some 4)).imageBase64
      = none :=
  ⟨(capture_modes_mutually_exclusive.2.1 shareState 10 "imgdata" "image/png" (by omega)).1,
   (capture_modes_mutually_exclusive.2.1 shareState 10 "imgdata" "image/png" (by omega)).2,
   (capture_modes_mutually_exclusive.2.2 { initState with imageBase64 := some "old" } 4).1⟩

/-- C8: an uploaded file strictly over `4 * 1024 * 1024` bytes is
rejected with the size error and nothing else changes — no remote call,
no change to the stored image or the capture mode; a file of exactly
`4 * 1024 * 1024` bytes is accepted and stored. -/
theorem upload_size_limit :
    (∀ (s : AppState) (size : Nat) (d m : String) (ok : Bool), 4 * 1024 * 1024 < size →
        handleImageChange s size d m ok = { s with error := some "imageSizeError" })
  ∧ (∀ (s : AppState) (d m : String),
        (handleImageChange s (4 * 1024 * 1024) d m true).imageBase64 = some d
      ∧ (handleImageChange s (4 * 1024 * 1024) d m true).imageMimeType = some m
      ∧ (handleImageChange s (4 * 1024 * 1024) d m true).error = none
      ∧ (handleImageChange s (4 * 1024 * 1024) d m true).isScreenSharing = false) := by
  constructor
  · intro s size d m ok h
    simp [handleImageChange, h]
  · intro s d m
    have hif : ¬(4 * 1024 * 1024 < 4 * 1024 * 1024) := by omega
    refine ⟨?_, ?_, ?_, ?_⟩
    · simp [handleImageChange, hif, withEffects_imageBase64]
    · simp [handleImageChange, hif, withEffects_imageMimeType]
    · rw [show handleImageChange s (4 * 1024 * 1024) d m true
          = withEffects (withEffects s (stopScreenSharing s))
              { withEffects s (stopScreenSharing s) with
                  imageBase64 := some d, imageMimeType := some m, error := none } from
        by simp [handleImageChange, hif]]
      rw [withEffects_error_of_image _ _ (by simp)]
    · simp [handleImageChange, hif, withEffects_isScreenSharing,
        (stopScreenSharing_spec s).2.2.2.1]

/-- C8 witness: one byte over the limit is rejected untouched; exactly
at the limit the image is stored. -/
theorem upload_size_limit_witness :
    handleImageChange initState (4 * 1024 * 1024 + 1) "imgdata" "image/png" true
        = { initState with error := some "imageSizeError" }
  ∧ (handleImageChange initState (4 * 1024 * 1024) "imgdata" "image/png" true).imageBase64
        = some "imgdata" :=
  ⟨upload_size_limit.1 initState (4 * 1024 * 1024 + 1) "imgdata" "image/png" true (by omega),
   (upload_size_limit.2 initState "imgdata" "image/png").1⟩

/-- C9: the manual analyze trigger (the analyze button) performs an
analysis call exactly when not loading, some input is present and screen
share is inactive; in every other state it is a no-op — in particular a
click while `isLoading` changes nothing and issues no call.  When it
fires it issues exactly one call with the current text and image. -/
theorem manual_trigger_guard :
    (∀ s : AppState, analyzeButtonDisabled s = true → step s Ev.analyzeClick = s)
  ∧ (∀ s : AppState, s.isLoading = true → step s Ev.analyzeClick = s)
  ∧ (∀ s : AppState, analyzeButtonDisabled s = false ↔
        (s.isLoading = false ∧ (jsTrim s.inputText ≠ "" ∨ s.imageBase64.isSome = true)
          ∧ s.isScreenSharing = false))
  ∧ (∀ s : AppState, analyzeButtonDisabled s = false →
        (step s Ev.analyzeClick).analysisCalls
            = s.analysisCalls ++ [⟨s.inputText, s.imageBase64, s.imageMimeType⟩]
      ∧ (step s Ev.analyzeClick).isLoading = true
      ∧ (step s Ev.analyzeClick).inputText = s.inputText
      ∧ (step s Ev.analyzeClick).imageBase64 = s.imageBase64
      ∧ (step s Ev.analyzeClick).analysisHistory = s.analysisHistory
      ∧ (step s Ev.analyzeClick).frameCalls = s.frameCalls) := by
  have henable : ∀ s : AppState, analyzeButtonDisabled s = false →
      ((jsTrim s.inputText == "" && s.imageBase64.isNone) || s.isLoading) = false := by
    intro s h
    revert h
    unfold analyzeButtonDisabled
    cases s.isLoading <;>
      cases jsTrim s.inputText == "" && s.imageBase64.isNone <;> simp
  refine ⟨?_, ?_, ?_, ?_⟩
  · intro s h
    simp [step, h]
  · intro s h
    simp [step, analyzeButtonDisabled, h]
  · intro s
    cases hl : s.isLoading <;> cases hsh : s.isScreenSharing <;>
      cases him : s.imageBase64 <;>
      by_cases ht : jsTrim s.inputText = "" <;>
      simp [analyzeButtonDisabled, hl, hsh, him, ht]
  · intro s h
    have hdeps : withEffects s (handleAnalyzeBegin s) = handleAnalyzeBegin s :=
      withEffects_of_deps_eq _ _ (by
        simp [effectDeps, (handleAnalyzeBegin_pres s).1, (handleAnalyzeBegin_pres s).2.1,
          (handleAnalyzeBegin_pres s).2.2.2.1])
    simp only [step]
    rw [if_neg (by simp [h]), hdeps]
    simp [handleAnalyzeBegin, henable s h]

/-- C9 witness: a click with text "hello" issues exactly that call; a
click while loading is a no-op. -/
theorem manual_trigger_guard_witness :
    (step { initState with inputText := "hello" } Ev.analyzeClick).analysisCalls
        = [⟨"hello", none, none⟩]
  ∧ step { initState with isLoading := true } Ev.analyzeClick
        = { initState with isLoading := true } := by
  constructor
  · have h := (manual_trigger_guard.2.2.2 { initState with inputText := "hello" } rfl).1
    simpa using h
  · exact manual_trigger_guard.2.1 { initState with isLoading := true } rfl

/-- C10: analysis failure is atomic with respect to history and input.
A failed manual/auto call changes exactly the error message and the
loading flag; a failed frame call leaves history, text and image
untouched and only records the error, clears the in-flight markers and
tears the share session down; an entry is appended to the history only
on success. -/
theorem failure_atomicity :
    (∀ (s : AppState) (msg : String),
        handleAnalyzeDone s (Except.error msg)
          = { s with error := some msg, isLoading := false })
  ∧ (∀ (s : AppState) (msg : String),
        (analyzeFrameDone s (Except.error msg)).analysisHistory = s.analysisHistory
      ∧ (analyzeFrameDone s (Except.error msg)).inputText = s.inputText
      ∧ (analyzeFrameDone s (Except.error msg)).imageBase64 = s.imageBase64
      ∧ (analyzeFrameDone s (Except.error msg)).imageMimeType = s.imageMimeType
      ∧ (analyzeFrameDone s (Except.error msg)).error = some msg
      ∧ (analyzeFrameDone s (Except.error msg)).isAnalyzingFrame = false
      ∧ (analyzeFrameDone s (Except.error msg)).isAnalyzingFrameRef = false
      ∧ (analyzeFrameDone s (Except.error msg)).isScreenSharing = false
      ∧ (analyzeFrameDone s (Except.error msg)).mediaStream = none
      ∧ (analyzeFrameDone s (Except.error msg)).analysisIntervalId = none)
  ∧ (∀ (s : AppState) (r : AnalysisResult),
        (handleAnalyzeDone s (Except.ok r)).analysisHistory
          = appendHistory s.analysisHistory r) := by
  refine ⟨?_, ?_, ?_⟩
  · intro s msg
    rfl
  · intro s msg
    obtain ⟨h1, h2, -, h4, -, h6, h7, h8, h9, h10, -⟩ :=
      stopScreenSharing_spec { s with error := some msg }
    exact ⟨by simpa [analyzeFrameDone] using h6, by simpa [analyzeFrameDone] using h7,
      by simpa [analyzeFrameDone] using h8, by simpa [analyzeFrameDone] using h9,
      by simpa [analyzeFrameDone] using h10, by simp [analyzeFrameDone],
      by simp [analyzeFrameDone], by simpa [analyzeFrameDone] using h4,
      by simpa [analyzeFrameDone] using h2, by simpa [analyzeFrameDone] using h1⟩
  · intro s r
    rfl

/-- C7 counterexample: the response text consisting of an empty JSON
object is well-formed JSON missing every required field of the declared
schema, yet the client's response handling returns it as a successful
`AnalysisResult` (the `result as AnalysisResult` cast performs no
runtime field validation) instead of failing with a parse error. -/
theorem missing_fields_not_rejected_cex :
    parseAnalysisResponse "\x7b\x7d" = Except.ok (JsonValue.obj [])
  ∧ specRequiredFieldsPresent (JsonValue.obj []) = false :=
  ⟨rfl, rfl⟩

/-- C7 amended: the client fails with a parse error exactly when the
trimmed response text is not well-formed JSON; any successfully parsed
value — required fields present or not — is returned as the result
without client-side validation. -/
theorem parse_error_only_on_malformed_json :
    (∀ t : String, jsonParse (jsTrim t) = none →
        parseAnalysisResponse t = Except.error "Failed to get analysis from AI: SyntaxError")
  ∧ (∀ (t : String) (j : JsonValue), jsonParse (jsTrim t) = some j →
        parseAnalysisResponse t = Except.ok j) := by
  constructor
  · intro t h
    simp [parseAnalysisResponse, h]
  · intro t j h
    simp [parseAnalysisResponse, h]

/-- C7 witness: a truncated document is a parse error; a well-formed
partial object is returned as-is. -/
theorem parse_error_only_on_malformed_json_witness :
    parseAnalysisResponse "\x7b" = Except.error "Failed to get analysis from AI: SyntaxError"
  ∧ parseAnalysisResponse " \x7b\"temperature\": 35\x7d "
      = Except.ok (JsonValue.obj [("temperature", JsonValue.num "35")]) :=
  ⟨parse_error_only_on_malformed_json.1 "\x7b" rfl,
   parse_error_only_on_malformed_json.2 " \x7b\"temperature\": 35\x7d "
     (JsonValue.obj [("temperature", JsonValue.num "35")]) rfl⟩

/-! ## Debounce (C1) -/

theorem stepText_spec (s : AppState) (t : String) :
    (step s (Ev.textChange t)).inputText = t
  ∧ (step s (Ev.textChange t)).imageBase64 = s.imageBase64
  ∧ (step s (Ev.textChange t)).isScreenSharing = s.isScreenSharing
  ∧ (step s (Ev.textChange t)).isLoading = s.isLoading
  ∧ (step s (Ev.textChange t)).imageMimeType = s.imageMimeType
  ∧ (step s (Ev.textChange t)).analysisCalls = s.analysisCalls := by
  simp only [step]
  split
  · next h => exact ⟨h.symm, rfl, rfl, rfl, rfl, rfl⟩
  · exact ⟨by simp [withEffects_inputText], by simp [withEffects_imageBase64],
      by simp [withEffects_isScreenSharing], by simp [withEffects_isLoading],
      by simp [withEffects_imageMimeType], by simp [withEffects_analysisCalls]⟩

theorem burst_spec (ts : List String) : ∀ s : AppState,
    (burst s ts).inputText = ts.getLastD s.inputText
  ∧ (burst s ts).imageBase64 = s.imageBase64
  ∧ (burst s ts).isScreenSharing = s.isScreenSharing
  ∧ (burst s ts).isLoading = s.isLoading
  ∧ (burst s ts).imageMimeType = s.imageMimeType
  ∧ (burst s ts).analysisCalls = s.analysisCalls := by
  induction ts with
  | nil => intro s; exact ⟨rfl, rfl, rfl, rfl, rfl, rfl⟩
  | cons t rest ih =>
    intro s
    have hstep : burst s (t :: rest) = burst (step s (Ev.textChange t)) rest := rfl
    obtain ⟨i1, i2, i3, i4, i5, i6⟩ := ih (step s (Ev.textChange t))
    obtain ⟨p1, p2, p3, p4, p5, p6⟩ := stepText_spec s t
    rw [hstep]
    refine ⟨?_, ?_, ?_, ?_, ?_, ?_⟩
    · rw [i1, p1, List.getLastD_cons]
    · rw [i2, p2]
    · rw [i3, p3]
    · rw [i4, p4]
    · rw [i5, p5]
    · rw [i6, p6]

theorem getLastD_cons_of_ne_nil (t : String) (rest : List String) (h : rest ≠ [])
    (d : String) : (t :: rest).getLastD d = rest.getLastD d := by
  cases rest with
  | nil => exact absurd rfl h
  | cons b l => rw [List.getLastD_cons, List.getLastD_cons, List.getLastD_cons]

theorem runClearEffect_debounceTimer (s : AppState) :
    (runClearEffect s).debounceTimer = s.debounceTimer := by
  unfold runClearEffect
  split <;> rfl

theorem getLastD_default_irrel (ts : List String) (h : ts ≠ []) (d d' : String) :
    ts.getLastD d = ts.getLastD d' := by
  cases ts with
  | nil => exact absurd rfl h
  | cons b l => rw [List.getLastD_cons, List.getLastD_cons]

theorem handleAnalyzeBegin_fires (x : AppState) (h1 : (jsTrim x.inputText == "") = false)
    (h2 : x.isLoading = false) :
    (handleAnalyzeBegin x).analysisCalls
      = x.analysisCalls ++ [⟨x.inputText, x.imageBase64, x.imageMimeType⟩] := by
  unfold handleAnalyzeBegin
  rw [h1, h2]
  simp

theorem burst_timer (ts : List String) : ∀ s : AppState,
    s.imageBase64 = none → s.isScreenSharing = false →
    List.Chain Ne s.inputText ts → ts ≠ [] → jsTrim (ts.getLastD "") ≠ "" →
    (burst s ts).debounceTimer = some ((burst s ts).nextTimerId - 1) := by
  induction ts with
  | nil => intro s _ _ _ hne _; exact absurd rfl hne
  | cons t rest ih =>
    intro s him hsh hch _ hlast
    have hch' := List.chain_cons.mp hch
    cases rest with
    | nil =>
      have ht : ¬(t = s.inputText) := fun hh => hch'.1 hh.symm
      have hlast' : jsTrim t ≠ "" := by simpa using hlast
      have hbeq : (jsTrim t == "") = false := by
        cases hb : (jsTrim t == "")
        · rfl
        · exact absurd (eq_of_beq hb) hlast'
      show (step s (Ev.textChange t)).debounceTimer
        = some ((step s (Ev.textChange t)).nextTimerId - 1)
      simp only [step]
      rw [if_neg ht]
      unfold withEffects
      rw [if_neg (fun hdeps => ht (congrArg Prod.fst hdeps).symm)]
      unfold runEffects
      rw [runClearEffect_debounceTimer]
      have hnext : ∀ x : AppState, (runClearEffect x).nextTimerId = x.nextTimerId := by
        intro x; unfold runClearEffect; split <;> rfl
      rw [hnext]
      unfold runDebounceEffect
      rw [if_neg (by simp [him, hsh, hbeq])]
      simp
    | cons t2 rest2 =>
      have hstep : burst s (t :: t2 :: rest2) = burst (step s (Ev.textChange t)) (t2 :: rest2) :=
        rfl
      obtain ⟨p1, p2, p3, -, -, -⟩ := stepText_spec s t
      rw [hstep]
      refine ih (step s (Ev.textChange t)) ?_ ?_ ?_ (by simp) ?_
      · rw [p2, him]
      · rw [p3, hsh]
      · rw [p1]; exact hch'.2
      · rwa [getLastD_cons_of_ne_nil t (t2 :: rest2) (by simp)] at hlast

/-- C1 counterexample: from the initial state, the text change to `"x"`
and its debounce expiry start an analysis (the loading flag is then
set and the call never completes in this run); the subsequent burst
`"a"`, `"ab"`, `"abc"` happens while no image is attached and screen
share is not active, yet when its debounce timer (identifier 3) fires,
the `loading` guard of `handleAnalyze` swallows the trigger: the burst
produces zero analysis calls, not exactly one carrying `"abc"`. -/
theorem debounce_burst_swallowed_cex :
    (steps initState [Ev.textChange "x", Ev.debounceFire 0]).isLoading = true
  ∧ (steps initState [Ev.textChange "x", Ev.debounceFire 0, Ev.textChange "a",
        Ev.textChange "ab", Ev.textChange "abc", Ev.debounceFire 3]).analysisCalls
      = [⟨"x", none, none⟩] :=
  ⟨rfl, rfl⟩

/-- C1 amended: a debounce timeout that is no longer the pending one
(superseded or spent) never causes an analysis call; every genuine text
change before a pending timeout fires cancels it; and for a burst of
text changes with no image attached, screen share inactive, a non-blank
final text and the loading flag clear when the timer fires, the burst
itself issues no call and the timer expiry issues exactly one call
carrying the final text value. -/
theorem debounce_single_call_amended :
    (∀ (s : AppState) (id : Nat), s.debounceTimer ≠ some id →
        step s (Ev.debounceFire id) = s)
  ∧ (∀ (s : AppState) (t : String) (j : Nat), s.debounceTimer = some j →
        j < s.nextTimerId → t ≠ s.inputText →
        (step s (Ev.textChange t)).debounceTimer ≠ some j)
  ∧ (∀ (s : AppState) (ts : List String), s.imageBase64 = none → s.imageMimeType = none →
        s.isScreenSharing = false → s.isLoading = false →
        List.Chain Ne s.inputText ts → ts ≠ [] → jsTrim (ts.getLastD "") ≠ "" →
        (burst s ts).analysisCalls = s.analysisCalls
      ∧ (step (burst s ts)
            (Ev.debounceFire ((burst s ts).nextTimerId - 1))).analysisCalls
          = s.analysisCalls ++ [⟨ts.getLastD "", none, none⟩]) := by
  refine ⟨?_, ?_, ?_⟩
  · intro s id h
    simp [step, h]
  · intro s t j _ hlt ht
    simp only [step]
    rw [if_neg ht]
    unfold withEffects
    rw [if_neg (fun hdeps => ht (congrArg Prod.fst hdeps).symm)]
    unfold runEffects
    rw [runClearEffect_debounceTimer]
    unfold runDebounceEffect
    split
    · simp
    · simp
      omega
  · intro s ts him hmime hsh hld hch hne hlast
    obtain ⟨b1, b2, -, b4, b5, b6⟩ := burst_spec ts s
    refine ⟨b6, ?_⟩
    have htm := burst_timer ts s him hsh hch hne hlast
    have hbeq : (jsTrim (ts.getLastD "") == "") = false := by
      cases hb : (jsTrim (ts.getLastD "") == "")
      · rfl
      · exact absurd (eq_of_beq hb) hlast
    have b1' : (burst s ts).inputText = ts.getLastD "" := by
      rw [b1]
      exact getLastD_default_irrel ts hne s.inputText ""
    have hfire := handleAnalyzeBegin_fires { burst s ts with debounceTimer := none }
      (by show (jsTrim (burst s ts).inputText == "") = false; rw [b1']; exact hbeq)
      (by show (burst s ts).isLoading = false; rw [b4]; exact hld)
    simp only [step]
    rw [if_pos htm, withEffects_analysisCalls, hfire]
    show (burst s ts).analysisCalls
        ++ [⟨(burst s ts).inputText, (burst s ts).imageBase64, (burst s ts).imageMimeType⟩]
      = s.analysisCalls ++ [⟨ts.getLastD "", none, none⟩]
    rw [b6, b1', b2, b5, him, hmime]

/-- C1 witness: from the idle initial state, the burst `"a"`, `"ab"`,
`"abc"` issues no call, and its debounce expiry issues exactly one call
carrying `"abc"`. -/
theorem debounce_single_call_amended_witness :
    (burst initState ["a", "ab", "abc"]).analysisCalls = []
  ∧ (step (burst initState ["a", "ab", "abc"]) (Ev.debounceFire 2)).analysisCalls
      = [⟨"abc", none, none⟩] := by
  have h := debounce_single_call_amended.2.2 initState ["a", "ab", "abc"] rfl rfl rfl rfl
    (List.Chain.cons (by decide)
      (List.Chain.cons (by decide) (List.Chain.cons (by decide) List.Chain.nil)))
    (by decide) (by decide)
  have hid : (burst initState ["a", "ab", "abc"]).nextTimerId - 1 = 2 := rfl
  rw [hid] at h
  refine ⟨h.1, ?_⟩
  rw [h.2]
  rfl

end PeaceTalk
